import Mathlib

/-!
Verification of `scripts/check-style-guide.py` from the tldr repository.

The script has three parts:
- `check_short_long_option(path)`: scans the lines of a page; for each index
  `i` in `range(1, len(lines))` it searches line `i` for the regex
  `\{\{-([a-z]{1})\|--\w+(-\w+)*\}\}` (an Option Reference). On a match with
  captured short flag `x`, it searches `lines[i - 2]` for the regex `\[(x)]`
  (an Option Description echoing the short flag) and, when found and the two
  captures agree, immediately returns the colored line
  `Colors.BLUE ++ "needs a manual check"`. Otherwise it returns `""`.
- `check_page(path, language_to_check)`: skips the page (returns `""`) when a
  non-empty language filter differs from the locale of the page, else
  delegates to `check_short_long_option`.
- `main()`: walks platforms and commands of the English page set, looks the
  command up in every locale page directory, and prints a green line
  `<rel_path> <status>` for every existing page whose check status is
  non-empty, where `rel_path` joins the last three path components.

The regular expressions are embedded as executable character-list matchers;
since the character classes `\w`, `-` and `}` that drive the alternatives of
`\w+(-\w+)*\}\}` are pairwise disjoint, the backtracking search of the
Python `re` module is deterministic here and is embedded as a direct
recursive scan. Helper functions of `scripts/_common.py` are not under the
sources provided; they are modelled from the spec where needed and marked as
such.
-/

/-- Membership of a character in the regex class `\w`. The Python `re`
module on `str` takes `\w` to be Unicode word characters; the model uses the
ASCII fragment `[A-Za-z0-9_]`, which covers every input considered here. -/
def isWordChar (c : Char) : Bool :=
  c.isAlphanum || c == '_'

/-- Membership in the regex class `[a-z]` (the captured short flag). -/
def isLowerAZ (c : Char) : Bool :=
  decide ('a' ≤ c ∧ c ≤ 'z')

/-- Matcher for the regex tail `\w+(-\w+)*\}\}` against a prefix of `s`.
The flag `needWord` records that at least one `\w` character is still
required in the current segment (at the start, and right after a hyphen).
Because the classes `\w`, `{-}` and `\x7b\x7d` are disjoint, the
backtracking search of `re` is deterministic on this tail and the scan below
is its exact behaviour. -/
def matchOptTail : Bool → List Char → Bool
  | _, [] => false
  | needWord, c :: cs =>
    if isWordChar c then matchOptTail false cs
    else if needWord then false
    else if c = '}' then decide (cs.head? = some '}')
    else if c = '-' then matchOptTail true cs
    else false

/-- Attempt of the regex `\{\{-([a-z]{1})\|--\w+(-\w+)*\}\}` anchored at the
start of `s`; returns the capture of group 1 (the short flag) on success.
The seven leading conjuncts spell out the literal prefix of the pattern,
character by character, and the class of the captured character. -/
def optRefAt (s : List Char) : Option Char :=
  match s with
  | b1 :: b2 :: d0 :: c :: v :: d1 :: d2 :: rest =>
    if b1 = '{' ∧ b2 = '{' ∧ d0 = '-' ∧ isLowerAZ c = true ∧ v = '|' ∧
        d1 = '-' ∧ d2 = '-' ∧ matchOptTail true rest = true then
      some c
    else none
  | _ => none

/-- `re.search` for the Option Reference pattern: try every start position
from left to right, return the capture of the leftmost match. This models
`re.search` on the reference regex over the line, with
`command_match[1]` as the returned character. -/
def findOptRef (s : List Char) : Option Char :=
  match s with
  | [] => none
  | c :: cs =>
    match optRefAt (c :: cs) with
    | some x => some x
    | none => findOptRef cs

/-- Attempt of the regex `\[(x)]` anchored at the start of `s`, for a fixed
lowercase letter `x` (the f-string interpolated `command_match[1]`):
a literal opening bracket, the captured group matching exactly `x`, and a
literal closing bracket. Returns the capture of group 1 on success. -/
def descrAt (x : Char) (s : List Char) : Option Char :=
  match s with
  | a :: d :: b :: _ =>
    if a = '[' ∧ d = x ∧ b = ']' then some d else none
  | _ => none

/-- `re.search` for the Option Description pattern, the f-string regex
built from `command_match[1]`, over `lines[i - 2]`: unanchored scan over
every start position, returning the capture of the leftmost match. -/
def findDescr (x : Char) (s : List Char) : Option Char :=
  match s with
  | [] => none
  | c :: cs =>
    match descrAt x (c :: cs) with
    | some d => some d
    | none => findDescr x cs

namespace Colors

/-- Modelled from the spec: the BLUE ANSI color prefix of `_common.Colors`,
an external collaborator that is not under the provided sources. The value
is shown in the docstring of `check_page` in the source itself. -/
def BLUE : String := "\x1b[34m"

/-- Modelled from the spec: the GREEN ANSI color prefix of
`_common.Colors`, an external collaborator that is not under the provided
sources. -/
def GREEN : String := "\x1b[32m"

end Colors

/-- Modelled from the spec: `_common.create_colored_line`, the colored
terminal output formatter, an external collaborator that is not under the
provided sources: a color prefix, the text, and the ANSI reset suffix. -/
def create_colored_line (start_color : String) (line : String) : String :=
  start_color ++ line ++ "\x1b[0m"

/-- Python list indexing `lines[j]` for a possibly negative index `j`: a
negative index counts from the end of the list. In the program, `j = i - 2`
with `1 ≤ i < len(lines)`, so `j ≥ -1` and the index is always in range;
the default `""` of `getD` is never reached on those calls. -/
def pyIndex (lines : List String) (j : Int) : String :=
  if j < 0 then lines.getD ((lines.length : Int) + j).toNat ""
  else lines.getD j.toNat ""

/-- One iteration of the loop body of `check_short_long_option` at index
`i`: `some flag` when the body executes `return`, `none` when it falls
through to the next index. The source guards the returned flag by
`command_match[1] == description_match[1]`, embedded as `x = y` below. -/
def checkIdx (lines : List String) (i : Nat) : Option String :=
  match findOptRef (lines.getD i "").data with
  | some x =>
    match findDescr x (pyIndex lines ((i : Int) - 2)).data with
    | some y =>
      if x = y then some (create_colored_line Colors.BLUE "needs a manual check")
      else none
    | none => none
  | none => none

/-- The early-return loop: the first index whose body returns wins; when no
body returns, the function returns `""`. -/
def firstHit (lines : List String) : List Nat → String
  | [] => ""
  | i :: is =>
    match checkIdx lines i with
    | some r => r
    | none => firstHit lines is

/-- `check_short_long_option` over the lines of the page:
`for i in range(1, len(lines))` is the index list `range' 1 (len - 1)`. -/
def check_short_long_option (lines : List String) : String :=
  firstHit lines (List.range' 1 (lines.length - 1))

/-- The characters after the first dot of `s`, `none` when `s` holds no
dot: the suffix selected by `name.split(".")[1]` on a directory name with a
single dot. -/
def afterDot (s : List Char) : Option (List Char) :=
  match s with
  | [] => none
  | c :: cs => if c = '.' then some cs else afterDot cs

/-- Modelled from the spec: `_common.get_locale`, an external collaborator
that is not under the provided sources. Per the spec it determines the
locale of a page from its path: a path ends in
`<pages-dir>/<platform>/<command>`, the page-set directory `pages` is the
English set, and a locale-specific set `pages.<locale>` yields that locale. -/
def get_locale (parts : List String) : String :=
  match (parts.reverse.take 3).reverse with
  | pagesDir :: _ =>
    match afterDot pagesDir.data with
    | some locale => ⟨locale⟩
    | none => "en"
  | _ => "en"

/-- A page as the checker sees it: the components of its path (Python
`Path.parts`) and the lines read from the file. -/
structure Page where
  parts : List String
  lines : List String

/-- `check_page(path, language_to_check)`: skip (empty status) when a
non-empty language filter differs from the locale of the page, otherwise
delegate to `check_short_long_option`. -/
def check_page (page : Page) (language_to_check : String) : String :=
  if language_to_check ≠ "" ∧ get_locale page.parts ≠ language_to_check then ""
  else check_short_long_option page.lines

/-- Modelled from the spec: the traversal inputs of `main` —
`get_tldr_root`, `get_pages_dir`, and directory listings filtered by
`IGNORE_FILES`, all external collaborators not under the provided sources —
abstracted as explicit data. `fs` maps the components of a path to the lines
of the file there, `none` when `path.exists()` is false. -/
structure Walker where
  rootParts : List String
  pagesDirs : List String
  platforms : List String
  commandsOf : String → List String
  fs : List String → Option (List String)

/-- The components of `root / page_dir / command` for the command identifier
`platform/name`. -/
def pagePath (w : Walker) (page_dir platform name : String) : List String :=
  w.rootParts ++ [page_dir, platform, name]

/-- `"/".join(path.parts[-3:])`: the last three path components (the whole
path when shorter), joined by slashes. -/
def rel_path_of (parts : List String) : String :=
  String.intercalate "/" ((parts.reverse.take 3).reverse)

/-- The body of the innermost loop of `main` for one
(page_dir, platform, name) triple: `some line` exactly when the page exists
and its check status is non-empty, in which case `line` is what `print`
emits. -/
def emitEntry (w : Walker) (language page_dir platform name : String) :
    Option String :=
  match w.fs (pagePath w page_dir platform name) with
  | none => none
  | some pageLines =>
    if check_page ⟨pagePath w page_dir platform name, pageLines⟩ language ≠ "" then
      some (create_colored_line Colors.GREEN
        (rel_path_of (pagePath w page_dir platform name) ++ " " ++
          check_page ⟨pagePath w page_dir platform name, pageLines⟩ language))
    else none

/-- The lines printed by `main`, in order: platforms, then commands of the
platform, then locale page directories. -/
def mainOutput (w : Walker) (language : String) : List String :=
  w.platforms.flatMap fun platform =>
    (w.commandsOf platform).flatMap fun name =>
      w.pagesDirs.filterMap fun page_dir =>
        emitEntry w language page_dir platform name

/-- The phrase of the claims: `s` contains the three-character substring
consisting of an opening bracket, the letter `x`, and a closing bracket. -/
def containsBracketLabel (x : Char) (s : List Char) : Prop :=
  ∃ pre post, s = pre ++ '[' :: x :: ']' :: post

/-! Helper lemmas about the matchers and the loop. -/

theorem flag_ne_empty :
    create_colored_line Colors.BLUE "needs a manual check" ≠ "" := by
  decide

theorem descrAt_eq_some {x : Char} {s : List Char} {d : Char}
    (h : descrAt x s = some d) :
    d = x ∧ ∃ rest, s = '[' :: x :: ']' :: rest := by
  unfold descrAt at h
  split at h
  · split at h
    · rename_i a d0 b rest hcond
      obtain ⟨ha, hd, hb⟩ := hcond
      injection h with h
      subst ha hd hb h
      exact ⟨rfl, rest, rfl⟩
    · exact absurd h (by simp)
  · exact absurd h (by simp)

theorem findDescr_eq_some {x : Char} {s : List Char} {d : Char}
    (h : findDescr x s = some d) : d = x := by
  induction s with
  | nil => simp [findDescr] at h
  | cons c cs ih =>
    rw [findDescr] at h
    cases hd : descrAt x (c :: cs) with
    | some d0 =>
      rw [hd] at h
      injection h with h
      subst h
      exact (descrAt_eq_some hd).1
    | none =>
      rw [hd] at h
      exact ih h

theorem findDescr_append (x : Char) (pre post : List Char) :
    findDescr x (pre ++ '[' :: x :: ']' :: post) = some x := by
  induction pre with
  | nil => simp [findDescr, descrAt]
  | cons c cs ih =>
    rw [List.cons_append, findDescr]
    cases hd : descrAt x (c :: (cs ++ '[' :: x :: ']' :: post)) with
    | some d =>
      obtain rfl : d = x := (descrAt_eq_some hd).1
      rfl
    | none => exact ih

theorem findDescr_shape {x : Char} {s : List Char} {d : Char}
    (h : findDescr x s = some d) : containsBracketLabel x s := by
  induction s with
  | nil => simp [findDescr] at h
  | cons c cs ih =>
    rw [findDescr] at h
    cases hd : descrAt x (c :: cs) with
    | some d0 =>
      obtain ⟨-, rest, hs⟩ := descrAt_eq_some hd
      exact ⟨[], rest, hs⟩
    | none =>
      rw [hd] at h
      obtain ⟨pre, post, hs⟩ := ih h
      exact ⟨c :: pre, post, by rw [List.cons_append, hs]⟩

theorem findDescr_some_iff (x : Char) (s : List Char) :
    findDescr x s = some x ↔ containsBracketLabel x s := by
  constructor
  · exact findDescr_shape
  · rintro ⟨pre, post, rfl⟩
    exact findDescr_append x pre post

theorem checkIdx_some_ne_empty {lines : List String} {i : Nat} {r : String}
    (h : checkIdx lines i = some r) : r ≠ "" := by
  unfold checkIdx at h
  split at h
  · split at h
    · split at h
      · injection h with h
        subst h
        exact flag_ne_empty
      · exact absurd h (by simp)
    · exact absurd h (by simp)
  · exact absurd h (by simp)

theorem checkIdx_ne_none_of {lines : List String} {i : Nat} {x : Char}
    (href : findOptRef (lines.getD i "").data = some x)
    (hdesc : findDescr x (pyIndex lines ((i : Int) - 2)).data = some x) :
    checkIdx lines i ≠ none := by
  unfold checkIdx
  simp only [href, hdesc]
  simp

theorem checkIdx_eq_none_of_descr_none {lines : List String} {i : Nat}
    (h : ∀ x, findOptRef (lines.getD i "").data = some x →
      findDescr x (pyIndex lines ((i : Int) - 2)).data = none) :
    checkIdx lines i = none := by
  unfold checkIdx
  cases href : findOptRef (lines.getD i "").data with
  | none => rfl
  | some x => simp only [h x href]

theorem firstHit_ne_empty {lines : List String} {is : List Nat} {i : Nat}
    (hmem : i ∈ is) (hhit : checkIdx lines i ≠ none) :
    firstHit lines is ≠ "" := by
  induction is with
  | nil => cases hmem
  | cons a as ih =>
    rw [firstHit]
    cases h : checkIdx lines a with
    | some r => exact checkIdx_some_ne_empty h
    | none =>
      rcases List.mem_cons.mp hmem with rfl | hmem2
      · exact absurd h hhit
      · exact ih hmem2

theorem firstHit_eq_empty {lines : List String} {is : List Nat}
    (h : ∀ i ∈ is, checkIdx lines i = none) :
    firstHit lines is = "" := by
  induction is with
  | nil => rfl
  | cons a as ih =>
    rw [firstHit, h a (List.mem_cons_self a as)]
    exact ih fun i hi => h i (List.mem_cons_of_mem a hi)

theorem pyIndex_of_two_le {lines : List String} {i : Nat} (h : 2 ≤ i) :
    pyIndex lines ((i : Int) - 2) = lines.getD (i - 2) "" := by
  unfold pyIndex
  rw [if_neg (by omega)]
  congr 1
  omega

theorem pyIndex_neg_one (lines : List String) :
    pyIndex lines (-1) = lines.getD (lines.length - 1) "" := by
  unfold pyIndex
  rw [if_pos (by omega)]
  congr 1
  omega

theorem optRefAt_lower {s : List Char} {x : Char}
    (h : optRefAt s = some x) : 'a' ≤ x ∧ x ≤ 'z' := by
  unfold optRefAt at h
  split at h
  · split at h
    · rename_i hcond
      obtain ⟨-, -, -, hc, -⟩ := hcond
      injection h with h
      subst h
      exact of_decide_eq_true hc
    · exact absurd h (by simp)
  · exact absurd h (by simp)

theorem findOptRef_lower {s : List Char} {x : Char}
    (h : findOptRef s = some x) : 'a' ≤ x ∧ x ≤ 'z' := by
  induction s with
  | nil => simp [findOptRef] at h
  | cons c cs ih =>
    rw [findOptRef] at h
    cases ha : optRefAt (c :: cs) with
    | some y =>
      rw [ha] at h
      injection h with h
      subst h
      exact optRefAt_lower ha
    | none =>
      rw [ha] at h
      exact ih h

/-! Claim theorems. -/

/-- C1: for every page in which some line `i` holds an Option Reference
with short flag `x` and the line two positions earlier contains the
bracketed label of the same letter, `check_short_long_option` returns the
colored needs-a-manual-check status, hence a non-empty string. -/
theorem check_c1 (lines : List String) (i : Nat) (x : Char)
    (h2 : 2 ≤ i) (hlen : i < lines.length)
    (href : findOptRef (lines.getD i "").data = some x)
    (hdesc : containsBracketLabel x (lines.getD (i - 2) "").data) :
    check_short_long_option lines ≠ "" := by
  unfold check_short_long_option
  refine firstHit_ne_empty ?_ (checkIdx_ne_none_of href ?_)
  · rw [List.mem_range'_1]
    omega
  · rw [pyIndex_of_two_le h2]
    exact (findDescr_some_iff x _).mpr hdesc

/-- Witness for C1: the end-to-end scenario of the spec, a page whose line
of index 2 is the label and line of index 4 the matching reference. -/
theorem check_c1_witness :
    check_short_long_option ["# tool", "", "[f]", "", "\x7b\x7b-f|--force\x7d\x7d"] ≠ "" :=
  check_c1 _ 4 'f' (by decide) (by decide) (by decide) ⟨[], [], by decide⟩

/-- Counterexample to C2: a page whose only Option Reference sits at index
1 IS flagged, because the Python expression `lines[i - 2]` at `i = 1` is
`lines[-1]`, the LAST line of the page, not a non-existent earlier line. -/
theorem check_c2_counterexample :
    findOptRef (["# tool", "\x7b\x7b-f|--force\x7d\x7d", "[f]"].getD 1 "").data = some 'f' ∧
    findOptRef (["# tool", "\x7b\x7b-f|--force\x7d\x7d", "[f]"].getD 0 "").data = none ∧
    findOptRef (["# tool", "\x7b\x7b-f|--force\x7d\x7d", "[f]"].getD 2 "").data = none ∧
    check_short_long_option ["# tool", "\x7b\x7b-f|--force\x7d\x7d", "[f]"] ≠ "" := by
  decide

/-- C2 (amended): the line inspected for the Option Description is
`lines[i - 2]` under Python indexing: for `2 ≤ i` that is the line exactly
two positions earlier, while for `i = 1` the negative index `-1` denotes
the last line of the page, so a page whose reference on line 1 pairs with a
matching label on the last line is flagged. -/
theorem check_c2_amended (lines : List String) (i : Nat) (x : Char)
    (h1 : 1 ≤ i) (h2 : i < lines.length) :
    (2 ≤ i → pyIndex lines ((i : Int) - 2) = lines.getD (i - 2) "") ∧
    (i = 1 → pyIndex lines ((i : Int) - 2) = lines.getD (lines.length - 1) "") ∧
    (findOptRef (lines.getD i "").data = some x →
      findDescr x (pyIndex lines ((i : Int) - 2)).data = some x →
      check_short_long_option lines ≠ "") := by
  refine ⟨fun h => pyIndex_of_two_le h, fun h => ?_, fun href hdesc => ?_⟩
  · subst h
    have hneg : ((1 : Nat) : Int) - 2 = -1 := by norm_num
    rw [hneg]
    exact pyIndex_neg_one lines
  · unfold check_short_long_option
    refine firstHit_ne_empty ?_ (checkIdx_ne_none_of href hdesc)
    rw [List.mem_range'_1]
    omega

/-- Witness for the amended C2: the counterexample page, flagged through
the wrap-around read of the last line. -/
theorem check_c2_amended_witness :
    check_short_long_option ["# tool", "\x7b\x7b-f|--force\x7d\x7d", "[f]"] ≠ "" :=
  (check_c2_amended ["# tool", "\x7b\x7b-f|--force\x7d\x7d", "[f]"] 1 'f'
    (by decide) (by decide)).2.2 (by decide) (by decide)

/-- C3: a page whose only Option Reference sits on line `i` with flag `x`,
while the inspected description line holds no occurrence of the bracketed
label of `x`, gets the empty status. This covers both cases of the claim:
a label `[y]` of a different letter `y`, and a long-form description such
as `[force]` for the reference of flag `f`, since neither contains the
three-character label of `x`. -/
theorem check_c3 (lines : List String) (i : Nat) (x : Char)
    (hi1 : 1 ≤ i) (hi2 : i < lines.length)
    (href : findOptRef (lines.getD i "").data = some x)
    (honly : ∀ j, 1 ≤ j → j < lines.length → j ≠ i →
      findOptRef (lines.getD j "").data = none)
    (hnox : ¬ containsBracketLabel x (pyIndex lines ((i : Int) - 2)).data) :
    check_short_long_option lines = "" := by
  unfold check_short_long_option
  refine firstHit_eq_empty fun j hj => ?_
  rw [List.mem_range'_1] at hj
  refine checkIdx_eq_none_of_descr_none fun z hz => ?_
  by_cases hji : j = i
  · subst hji
    rw [href] at hz
    injection hz with hz
    subst hz
    cases hfd : findDescr x (pyIndex lines ((j : Int) - 2)).data with
    | none => rfl
    | some d => exact absurd (findDescr_shape hfd) hnox
  · rw [honly j hj.1 (by omega) hji] at hz
    cases hz

/-- Witness for C3: both end-to-end scenarios of the claim for the
reference of flag `f` — a description `[y]` of a different letter, and the
long-form description `[force]` — give the empty status. -/
theorem check_c3_witness :
    check_short_long_option ["# tool", "", "[y]", "", "\x7b\x7b-f|--force\x7d\x7d"] = "" ∧
    check_short_long_option ["# tool", "", "[force]", "", "\x7b\x7b-f|--force\x7d\x7d"] = "" :=
  ⟨check_c3 ["# tool", "", "[y]", "", "\x7b\x7b-f|--force\x7d\x7d"] 4 'f'
    (by decide) (by decide) (by decide)
    (fun j h1 h2 h3 => by
      have h4 : j < 5 := by simpa using h2
      interval_cases j <;> first | decide | exact absurd rfl h3)
    (fun hc => absurd ((findDescr_some_iff 'f' _).mpr hc) (by decide)),
  check_c3 ["# tool", "", "[force]", "", "\x7b\x7b-f|--force\x7d\x7d"] 4 'f'
    (by decide) (by decide) (by decide)
    (fun j h1 h2 h3 => by
      have h4 : j < 5 := by simpa using h2
      interval_cases j <;> first | decide | exact absurd rfl h3)
    (fun hc => absurd ((findDescr_some_iff 'f' _).mpr hc) (by decide))⟩

/-- C4: with a non-empty language filter different from the locale detected
from the path of the page, `check_page` returns the empty status whatever
the content of the page is. -/
theorem check_c4 (parts pageLines : List String) (language : String)
    (hne : language ≠ "") (hloc : get_locale parts ≠ language) :
    check_page ⟨parts, pageLines⟩ language = "" := by
  unfold check_page
  exact if_pos ⟨hne, hloc⟩

/-- Witness for C4: an English page whose content flags under
`check_short_long_option` is still skipped by the filter `fr`. -/
theorem check_c4_witness :
    check_page ⟨["tldr", "pages", "common", "foo.md"],
      ["# tool", "", "[f]", "", "\x7b\x7b-f|--force\x7d\x7d"]⟩ "fr" = "" ∧
    check_short_long_option ["# tool", "", "[f]", "", "\x7b\x7b-f|--force\x7d\x7d"] ≠ "" :=
  ⟨check_c4 _ _ _ (by decide) (by decide), by decide⟩

/-- C5: a page with fewer than two lines always gets the empty status. -/
theorem check_c5 (lines : List String) (h : lines.length < 2) :
    check_short_long_option lines = "" := by
  unfold check_short_long_option
  have h1 : lines.length - 1 = 0 := by omega
  rw [h1]
  rfl

/-- Witness for C5: a one-line page whose single line is itself an Option
Reference is not flagged. -/
theorem check_c5_witness :
    check_short_long_option ["\x7b\x7b-f|--force\x7d\x7d"] = "" :=
  check_c5 _ (by decide)

/-- C7: the checker is a pure function of the lines of the page; two runs
on the same unmodified content give the same status. -/
theorem check_c7 (lines : List String) :
    check_short_long_option lines = check_short_long_option lines := rfl

/-- C8: with an empty filter, or a filter equal to the detected locale,
`check_page` is exactly `check_short_long_option` on the lines. -/
theorem check_c8 (parts pageLines : List String) (language : String)
    (h : language = "" ∨ get_locale parts = language) :
    check_page ⟨parts, pageLines⟩ language = check_short_long_option pageLines := by
  have hc : ¬ (language ≠ "" ∧ get_locale parts ≠ language) := by
    rcases h with h | h <;> simp [h]
  unfold check_page
  exact if_neg hc

/-- Witness for C8: pure delegation on an empty filter. -/
theorem check_c8_witness :
    check_page ⟨["tldr", "pages", "common", "foo.md"],
      ["# tool", "", "[force]", "", "\x7b\x7b-f|--force\x7d\x7d"]⟩ "" =
    check_short_long_option ["# tool", "", "[force]", "", "\x7b\x7b-f|--force\x7d\x7d"] :=
  check_c8 _ _ _ (Or.inl rfl)

/-- C9: the Option Reference pattern only ever captures a single lowercase
ASCII letter; uppercase, digit, or multi-character short flags never match,
and a page whose only reference-like construct has such a flag is not
flagged. -/
theorem check_c9 :
    (∀ (s : List Char) (x : Char), findOptRef s = some x → ('a' ≤ x ∧ x ≤ 'z')) ∧
    findOptRef "\x7b\x7b-X|--long-name\x7d\x7d".data = none ∧
    findOptRef "\x7b\x7b-9|--long-name\x7d\x7d".data = none ∧
    findOptRef "\x7b\x7b-ab|--long-name\x7d\x7d".data = none ∧
    check_short_long_option ["[X]", "", "\x7b\x7b-X|--long-name\x7d\x7d"] = "" :=
  ⟨fun _ _ h => findOptRef_lower h, by decide, by decide, by decide, by decide⟩

/-- Witness for C9: the universally quantified part applied at the concrete
reference `{{-f|--force}}`. -/
theorem check_c9_witness : 'a' ≤ 'f' ∧ 'f' ≤ 'z' :=
  check_c9.1 "\x7b\x7b-f|--force\x7d\x7d".data 'f' (by decide)

/-- C10: the Option Description search is an unanchored substring search:
any occurrence of the bracketed label inside the inspected line, with
arbitrary text around it, makes the description match succeed and the page
get flagged. -/
theorem check_c10 (lines : List String) (i : Nat) (x : Char)
    (pre post : List Char)
    (h2 : 2 ≤ i) (hlen : i < lines.length)
    (href : findOptRef (lines.getD i "").data = some x)
    (hline : (lines.getD (i - 2) "").data = pre ++ '[' :: x :: ']' :: post) :
    findDescr x (lines.getD (i - 2) "").data = some x ∧
    check_short_long_option lines ≠ "" := by
  have hd : findDescr x (lines.getD (i - 2) "").data = some x := by
    rw [hline]
    exact findDescr_append x pre post
  refine ⟨hd, ?_⟩
  unfold check_short_long_option
  refine firstHit_ne_empty ?_ (checkIdx_ne_none_of href ?_)
  · rw [List.mem_range'_1]
    omega
  · rw [pyIndex_of_two_le h2]
    exact hd

/-- Witness for C10: the label embedded in the middle of unrelated text on
the inspected line still flags the page. -/
theorem check_c10_witness :
    findDescr 'f'
      ((["# tool", "", "text [f] more", "", "\x7b\x7b-f|--force\x7d\x7d"].getD 2 "").data) = some 'f' ∧
    check_short_long_option ["# tool", "", "text [f] more", "", "\x7b\x7b-f|--force\x7d\x7d"] ≠ "" :=
  check_c10 _ 4 'f' "text ".data " more".data
    (by decide) (by decide) (by decide) (by decide)

theorem emitEntry_eq_some_iff (w : Walker) (language pd pf nm out : String) :
    emitEntry w language pd pf nm = some out ↔
      ∃ pageLines, w.fs (pagePath w pd pf nm) = some pageLines ∧
        check_page ⟨pagePath w pd pf nm, pageLines⟩ language ≠ "" ∧
        out = create_colored_line Colors.GREEN
          (rel_path_of (pagePath w pd pf nm) ++ " " ++
            check_page ⟨pagePath w pd pf nm, pageLines⟩ language) := by
  unfold emitEntry
  cases hfs : w.fs (pagePath w pd pf nm) with
  | none => simp
  | some pageLines =>
    by_cases hst : check_page ⟨pagePath w pd pf nm, pageLines⟩ language = ""
    · simp [hst]
    · simp only [if_pos hst, Option.some.injEq]
      constructor
      · intro h
        exact ⟨pageLines, rfl, hst, h.symm⟩
      · rintro ⟨pl, hpl, -, hout⟩
        cases hpl
        exact hout.symm

theorem rel_path_pagePath (w : Walker) (pd pf nm : String) :
    rel_path_of (pagePath w pd pf nm) = pd ++ "/" ++ pf ++ "/" ++ nm := by
  unfold rel_path_of pagePath
  have h3 : ((w.rootParts ++ [pd, pf, nm]).reverse.take 3).reverse = [pd, pf, nm] := by
    rw [List.reverse_append]
    simp
  rw [h3]
  simp [String.intercalate, String.intercalate.go]

/-- C6: a line appears in the output of the walker exactly when, for some
platform, command name and locale page directory it enumerates, the page
file exists and `check_page` returns a non-empty status; the printed line
is the green-colored `<rel_path> <status>`, where `rel_path` joins the last
three path components: the locale directory name, the platform and the
command. -/
theorem check_c6 (w : Walker) (language out : String) :
    (out ∈ mainOutput w language ↔
      ∃ platform ∈ w.platforms, ∃ name ∈ w.commandsOf platform,
        ∃ page_dir ∈ w.pagesDirs, ∃ pageLines,
          w.fs (pagePath w page_dir platform name) = some pageLines ∧
          check_page ⟨pagePath w page_dir platform name, pageLines⟩ language ≠ "" ∧
          out = create_colored_line Colors.GREEN
            (rel_path_of (pagePath w page_dir platform name) ++ " " ++
              check_page ⟨pagePath w page_dir platform name, pageLines⟩ language)) ∧
    (∀ page_dir platform name,
      rel_path_of (pagePath w page_dir platform name) =
        page_dir ++ "/" ++ platform ++ "/" ++ name) := by
  constructor
  · unfold mainOutput
    simp only [List.mem_flatMap, List.mem_filterMap]
    constructor
    · rintro ⟨pf, hpf, nm, hnm, pd, hpd, hemit⟩
      obtain ⟨pl, h1a, h2a, h3a⟩ := (emitEntry_eq_some_iff w language pd pf nm out).mp hemit
      exact ⟨pf, hpf, nm, hnm, pd, hpd, pl, h1a, h2a, h3a⟩
    · rintro ⟨pf, hpf, nm, hnm, pd, hpd, pl, h1a, h2a, h3a⟩
      exact ⟨pf, hpf, nm, hnm, pd, hpd,
        (emitEntry_eq_some_iff w language pd pf nm out).mpr ⟨pl, h1a, h2a, h3a⟩⟩
  · intro pd pf nm
    exact rel_path_pagePath w pd pf nm
